import Mathlib

/-!
Verification of the DNS dispatch core of `src/wintun/dns.rs`.

The embedding below translates the `DnsServer` logic into pure Lean
functions.  Machine-level aspects are modelled as follows:

* datagram payloads (`Vec<u8>` slices) are `List Nat`;
* client socket addresses (`SocketAddr`) are `Nat`;
* `Instant` timestamps are `Nat` (seconds), and `(now - t).as_secs()` is
  the truncated subtraction `now - t`, matching the saturating semantics
  of `Instant` subtraction;
* `Message::from_bytes` is an opaque decoding function carried in the
  configuration: the dispatch code only ever looks at the decoded
  question list (name and record type per question) and, for replies, at
  which answer records carry an IP address (`rdata().to_ip_addr()`
  followed by `to_string()` is modelled as an optional `String` per
  answer record);
* the `HashMap<String, QueryResult>` store is an association list with
  first-match lookup and replace-in-place update (keys stay unique when
  starting from the empty store, giving exactly the finite-map
  semantics the code relies on);
* fallible socket operations are driven by failure oracles in the
  configuration.  `send_to` on the listener and `try_send` on the route
  channel have their `Err` branch logged only, so a failure there does
  not change control flow; the `.send(data).unwrap()` calls on the
  upstream sockets panic on failure, which is modelled by the dispatch
  returning `none`.  Indexing `queries()[0]` on an empty question list
  also panics and is likewise modelled by `none`.
* log statements are ignored (logging is outside the modelled state).
-/

/-- Socket addresses (`SocketAddr`) are abstracted as naturals. -/
abbrev Addr := Nat

/-- Raw datagram payload bytes. -/
abbrev Bytes := List Nat

/-- DNS record types, as far as the dispatch logic inspects them: the code
only ever compares a question type against `RecordType::PTR`. -/
inductive QType where
  | A
  | PTR
  | other
deriving DecidableEq

/-- One question of a decoded DNS message: `query.name().to_utf8()` and
`query.query_type()`. -/
structure DnsQuery where
  name : String
  qtype : QType
deriving DecidableEq

/-- The view of a decoded `trust_dns_proto` `Message` used by the dispatch
code: its question list and, per answer record, the optional textual IP
address (`record.rdata().to_ip_addr()` rendered with `to_string()`).
`message.query_count()` of a decoded message equals the length of
`queries`. -/
structure DnsMsg where
  queries : List DnsQuery
  answers : List (Option String)
deriving DecidableEq

/-- Cache entry stored per domain name (struct `QueryResult`). -/
structure QueryResult where
  addresses : List Addr
  response : Bytes
  update_time : Nat
deriving DecidableEq

/-- The `store: HashMap<String, QueryResult>` field, as an association
list with unique keys. -/
abbrev Store := List (String × QueryResult)

/-- Lookup in the store (`HashMap::get`). -/
def storeGet (st : Store) (name : String) : Option QueryResult :=
  match st with
  | [] => none
  | (k, v) :: rest => if k = name then some v else storeGet rest name

/-- Replace-or-add in the store (`HashMap::insert` / writing through
`get_mut`). -/
def storeSet (st : Store) (name : String) (r : QueryResult) : Store :=
  match st with
  | [] => [(name, r)]
  | (k, v) :: rest => if k = name then (k, r) :: rest else (k, v) :: storeSet rest name r

/-- Key membership in the store. -/
def storeContains (st : Store) (name : String) : Bool :=
  (storeGet st name).isSome

/-- Configuration and environment of one `DnsServer`: everything the
dispatch logic reads but does not own, including the decoder and the
socket failure oracles. -/
structure Config where
  parse : Bytes → Option DnsMsg
  blocked_domains : List String
  dns_cache_time : Nat
  arp_data : Bytes
  clientSendFails : Bytes → Addr → Bool
  trustedSendFails : Bytes → Bool
  poisonedSendFails : Bytes → Bool
  trySendFails : String → Bool

/-- Observable outbound effects of a dispatch step.  `toClient` is a
`listener.send_to` attempt together with its outcome (a failed attempt is
only logged by the code), `toTrusted`/`toPoisoned` are the successful
upstream `send` calls, and `routeReport` is a `sender.try_send` attempt
with its outcome. -/
inductive Output where
  | toClient (data : Bytes) (addr : Addr) (ok : Bool)
  | toTrusted (data : Bytes)
  | toPoisoned (data : Bytes)
  | routeReport (addr : String) (ok : Bool)
deriving DecidableEq

/-- Blocklist loading from `DnsServer::setup`: each line of the blocklist
file is pushed with a trailing label separator (`line + "."`). -/
def loadBlockedDomains (lines : List String) : List String :=
  lines.map (fun line => line ++ ".")

/-- Rust `str::ends_with` on UTF-8 strings: a byte-for-byte suffix test,
which coincides with the character-list suffix test for valid UTF-8. -/
def ends_with (name domain : String) : Bool :=
  domain.data.isSuffixOf name.data

/-- `DnsServer::is_blocked`: some blocklist entry is a plain suffix of the
queried name. -/
def is_blocked (blocked_domains : List String) (name : String) : Bool :=
  blocked_domains.any (fun domain => ends_with name domain)

/-- The fixed reverse-lookup-for-loopback name tested in
`dispatch_local`. -/
def loopbackPtrName : String := "1.0.0.127.in-addr.arpa."

/-- `DnsServer::add_request`: fetch the entry, creating a fresh one (empty
addresses and response, `update_time` the current instant `tNew`) when
absent, then push the requester's address. -/
def add_request (name : String) (address : Addr) (tNew : Nat) (st : Store) : Store :=
  match storeGet st name with
  | some result => storeSet st name { result with addresses := result.addresses ++ [address] }
  | none => storeSet st name { addresses := [address], response := [], update_time := tNew }

/-- The classification-and-forward tail of `dispatch_local`: send the raw
query to the trusted upstream when blocked, otherwise to the poisoned
upstream (both through `.send(data).unwrap()`, so a send failure panics,
modelled as `none`), then record the requester via `add_request`. -/
def forwardQuery (cfg : Config) (tNew : Nat) (st : Store) (data : Bytes) (frm : Addr)
    (name : String) : Option (Store × List Output) :=
  if is_blocked cfg.blocked_domains name then
    if cfg.trustedSendFails data then none
    else some (add_request name frm tNew st, [Output.toTrusted data])
  else
    if cfg.poisonedSendFails data then none
    else some (add_request name frm tNew st, [Output.toPoisoned data])

/-- Body of the `Ok((length, from))` arm of the drain loop in
`DnsServer::dispatch_local`, for one received datagram.  `now` is the
instant captured at the top of `dispatch_local`, `tNew` the instant
`add_request` would observe.  Returns `none` exactly when the code
panics (upstream `send(..).unwrap()` failure). -/
def processLocalDatagram (cfg : Config) (now tNew : Nat) (st : Store) (data : Bytes)
    (frm : Addr) : Option (Store × List Output) :=
  match cfg.parse data with
  | none => some (st, [])
  | some message =>
    match message.queries with
    | [query] =>
      let name := query.name
      if query.qtype = QType.PTR ∧ name = loopbackPtrName then
        some (st, [Output.toClient cfg.arp_data frm (!cfg.clientSendFails cfg.arp_data frm)])
      else
        match storeGet st name with
        | some result =>
          if result.response ≠ [] ∧ now - result.update_time < cfg.dns_cache_time then
            some (st, [Output.toClient result.response frm
              (!cfg.clientSendFails result.response frm)])
          else
            forwardQuery cfg tNew st data frm name
        | none => forwardQuery cfg tNew st data frm name
    | _ => some (st, [])

/-- Drain loop of `DnsServer::dispatch_local` over the datagrams available
on the listener socket, in arrival order.  Each datagram carries the
instant its `add_request` call would observe.  A panic anywhere aborts the
whole drain (`none`). -/
def dispatch_local (cfg : Config) (now : Nat) (st : Store) :
    List (Bytes × Addr × Nat) → Option (Store × List Output)
  | [] => some (st, [])
  | (data, frm, tNew) :: rest =>
    match processLocalDatagram cfg now tNew st data frm with
    | none => none
    | some (st', outs) =>
      match dispatch_local cfg now st' rest with
      | none => none
      | some (st'', outs') => some (st'', outs ++ outs')

/-- Route reports attempted for one decoded upstream reply: one `try_send`
per answer record that carries an IP address, in record order. -/
def routeReports (cfg : Config) (message : DnsMsg) : List Output :=
  message.answers.filterMap (fun a => a.map (fun s => Output.routeReport s (!cfg.trySendFails s)))

/-- Body of the `Ok((length, from))` arm of the drain loop in
`DnsServer::dispatch_server`, for one received datagram.  Returns `none`
exactly when the code panics, which happens iff the datagram decodes to a
message with an empty question list (`message.queries()[0]` out of
bounds). -/
def processServerDatagram (cfg : Config) (now : Nat) (st : Store) (data : Bytes)
    (_frm : Addr) : Option (Store × List Output) :=
  match cfg.parse data with
  | none => some (st, [])
  | some message =>
    match message.queries with
    | [] => none
    | query :: _ =>
      let name := query.name
      match storeGet st name with
      | none => some (st, [])
      | some result =>
        some (storeSet st name { addresses := [], response := data, update_time := now },
          result.addresses.map (fun a => Output.toClient data a (!cfg.clientSendFails data a))
            ++ routeReports cfg message)

/-- Drain loop of `DnsServer::dispatch_server` (shared by
`dispatch_trusted` and `dispatch_poisoned`) over the datagrams available
on that upstream socket, in arrival order. -/
def dispatch_server (cfg : Config) (now : Nat) (st : Store) :
    List (Bytes × Addr) → Option (Store × List Output)
  | [] => some (st, [])
  | (data, frm) :: rest =>
    match processServerDatagram cfg now st data frm with
    | none => none
    | some (st', outs) =>
      match dispatch_server cfg now st' rest with
      | none => none
      | some (st'', outs') => some (st'', outs ++ outs')

/-- One readiness wake-up delivered to `DnsServer::ready`: the local
listener or one of the two upstream sockets became readable, with the
instant captured at the top of the drain and the datagrams available. -/
inductive Ev where
  | localReady (now : Nat) (ds : List (Bytes × Addr × Nat))
  | serverReady (now : Nat) (ds : List (Bytes × Addr))

/-- Run of the dispatch engine over a sequence of readiness events,
threading the store; `none` when any drain panicked. -/
def runEvents (cfg : Config) (st : Store) : List Ev → Option Store
  | [] => some st
  | Ev.localReady now ds :: rest =>
    match dispatch_local cfg now st ds with
    | none => none
    | some (st', _) => runEvents cfg st' rest
  | Ev.serverReady now ds :: rest =>
    match dispatch_server cfg now st ds with
    | none => none
    | some (st', _) => runEvents cfg st' rest

/-!
Spec-side definitions.  The next definitions follow the specification's
words, not the source; they are compared against the source-derived
definitions above.
-/

/-- Modelled from the spec (§4.4, C1): a name "ends with S at a full label
boundary" when S is a suffix of the name and the matched suffix starts at
the beginning of the name or right after a label separator. -/
def endsAtLabelBoundarySpec (name s : String) : Bool :=
  let pre := name.data.take (name.data.length - s.data.length)
  ends_with name s && (pre.isEmpty || decide (pre.getLastD '.' = '.'))

/-- Modelled from the spec (§3 invariant, C9): the datagram bytes decode
to a message containing some question for the name `n`, i.e. "a query for
that name reached the dispatch engine". -/
def isQueryFor (cfg : Config) (n : String) (data : Bytes) : Bool :=
  match cfg.parse data with
  | some message => message.queries.any (fun q => decide (q.name = n))
  | none => false

/-- Modelled from the spec (§3 invariant, C9): some datagram of some
local-listener readiness event is a query for `n`. -/
def queryReachedEvents (cfg : Config) (n : String) : List Ev → Bool
  | [] => false
  | Ev.localReady _ ds :: rest =>
    ds.any (fun d => isQueryFor cfg n d.1) || queryReachedEvents cfg n rest
  | Ev.serverReady _ _ :: rest => queryReachedEvents cfg n rest

/-- A datagram is an accepted query for `n` when it decodes to a message
with exactly one question, that question's name is `n`, and the question
is not the fixed loopback PTR question.  These are exactly the local
datagrams whose processing reaches the cache/classification steps of
`dispatch_local` for the name `n`. -/
def isAcceptedQueryFor (cfg : Config) (n : String) (data : Bytes) : Bool :=
  match cfg.parse data with
  | some message =>
    match message.queries with
    | [query] =>
      decide (query.name = n ∧ ¬(query.qtype = QType.PTR ∧ query.name = loopbackPtrName))
    | _ => false
  | none => false

/-- Some datagram of some local-listener readiness event is an accepted
query for `n`. -/
def acceptedInEvents (cfg : Config) (n : String) : List Ev → Bool
  | [] => false
  | Ev.localReady _ ds :: rest =>
    ds.any (fun d => isAcceptedQueryFor cfg n d.1) || acceptedInEvents cfg n rest
  | Ev.serverReady _ _ :: rest => acceptedInEvents cfg n rest

/-!
Concrete test fixtures used by counterexamples and witnesses.
-/

/-- A concrete configuration: datagram `[0]` decodes to the loopback PTR
query, `[1]` to a single A-question for the blocked name `"a."`, `[2]` to
a two-question message, `[3]` to a single-question reply for `"r."`
carrying one A-record address, `[8]` to a decodable reply with an empty
question section, and everything else fails to decode.  Sends to client
address `4` fail; all other sends succeed. -/
def cfgA : Config where
  parse := fun d =>
    if d = [0] then some ⟨[⟨loopbackPtrName, QType.PTR⟩], []⟩
    else if d = [1] then some ⟨[⟨"a.", QType.A⟩], []⟩
    else if d = [2] then some ⟨[⟨"b.", QType.A⟩, ⟨"c.", QType.A⟩], []⟩
    else if d = [3] then some ⟨[⟨"r.", QType.A⟩], [some "93.184.216.34", none]⟩
    else if d = [8] then some ⟨[], [some "5.6.7.8"]⟩
    else none
  blocked_domains := ["a."]
  dns_cache_time := 5
  arp_data := [7, 7]
  clientSendFails := fun _ a => decide (a = 4)
  trustedSendFails := fun _ => false
  poisonedSendFails := fun _ => false
  trySendFails := fun _ => false

/-- The configuration for the classification counterexample: the blocklist
file holds the single line `example.com`, and datagram `[1]` decodes to a
single A-question for `"notexample.com."`. -/
def cfgC1 : Config where
  parse := fun d =>
    if d = [1] then some ⟨[⟨"notexample.com.", QType.A⟩], []⟩ else none
  blocked_domains := loadBlockedDomains ["example.com"]
  dns_cache_time := 5
  arp_data := [7, 7]
  clientSendFails := fun _ _ => false
  trustedSendFails := fun _ => false
  poisonedSendFails := fun _ => false
  trySendFails := fun _ => false

/-- The fixture configuration with a failing trusted-upstream socket. -/
def cfgFail : Config :=
  { cfgA with trustedSendFails := fun _ => true }

/-!
Helper lemmas about the store.
-/

theorem storeGet_storeSet (st : Store) (n m : String) (r : QueryResult) :
    storeGet (storeSet st n r) m = if n = m then some r else storeGet st m := by
  induction st with
  | nil => simp [storeSet, storeGet]
  | cons head rest ih =>
    obtain ⟨k, v⟩ := head
    by_cases hkn : k = n
    · subst hkn
      by_cases hkm : k = m <;> simp [storeSet, storeGet, hkm]
    · by_cases hkm : k = m
      · subst hkm
        have hnk : ¬n = k := fun h => hkn h.symm
        simp [storeSet, storeGet, hkn, hnk]
      · simp [storeSet, storeGet, hkn, hkm, ih]

theorem storeGet_add_request (n : String) (a : Addr) (t : Nat) (st : Store) (m : String) :
    storeGet (add_request n a t st) m =
      if n = m then
        some (match storeGet st n with
          | some r => { r with addresses := r.addresses ++ [a] }
          | none => { addresses := [a], response := [], update_time := t })
      else storeGet st m := by
  unfold add_request
  cases h : storeGet st n <;> simp [storeGet_storeSet, h]

theorem storeGet_add_request_self (n : String) (a : Addr) (t : Nat) (st : Store)
    (r : QueryResult) (h : storeGet st n = some r) :
    storeGet (add_request n a t st) n = some { r with addresses := r.addresses ++ [a] } := by
  simp [storeGet_add_request, h]

theorem storeContains_add_request (n : String) (a : Addr) (t : Nat) (st : Store) (m : String) :
    storeContains (add_request n a t st) m = true ↔ n = m ∨ storeContains st m = true := by
  by_cases h : n = m <;> simp [storeContains, storeGet_add_request, h]

theorem storeContains_storeSet_of_mem (st : Store) (n m : String) (r r0 : QueryResult)
    (h : storeGet st n = some r0) :
    storeContains (storeSet st n r) m = storeContains st m := by
  by_cases hm : n = m
  · subst hm; simp [storeContains, storeGet_storeSet, h]
  · simp [storeContains, storeGet_storeSet, hm]

/-!
Key-membership lemmas for the dispatch steps, leading to the Answer Cache
invariant.
-/

theorem forwardQuery_contains (cfg : Config) (tNew : Nat) (st st' : Store) (data : Bytes)
    (frm : Addr) (name : String) (outs : List Output)
    (h : forwardQuery cfg tNew st data frm name = some (st', outs)) (m : String) :
    storeContains st' m = true ↔ name = m ∨ storeContains st m = true := by
  unfold forwardQuery at h
  split at h <;> split at h <;>
    simp only [Option.some.injEq, Prod.mk.injEq, reduceCtorEq] at h <;>
    obtain ⟨rfl, rfl⟩ := h.symm <;> exact storeContains_add_request name frm tNew st m

theorem processLocalDatagram_contains (cfg : Config) (now tNew : Nat) (st st' : Store)
    (data : Bytes) (frm : Addr) (outs : List Output)
    (h : processLocalDatagram cfg now tNew st data frm = some (st', outs)) (m : String) :
    storeContains st' m = true ↔
      isAcceptedQueryFor cfg m data = true ∨ storeContains st m = true := by
  unfold processLocalDatagram at h
  cases hp : cfg.parse data with
  | none =>
    rw [hp] at h
    simp only [Option.some.injEq, Prod.mk.injEq] at h
    obtain ⟨rfl, rfl⟩ := h
    simp [isAcceptedQueryFor, hp]
  | some message =>
    rw [hp] at h
    simp only at h
    cases hq : message.queries with
    | nil =>
      rw [hq] at h
      simp only [Option.some.injEq, Prod.mk.injEq] at h
      obtain ⟨rfl, rfl⟩ := h
      simp [isAcceptedQueryFor, hp, hq]
    | cons q qs =>
      cases qs with
      | cons q2 qs2 =>
        rw [hq] at h
        simp only [Option.some.injEq, Prod.mk.injEq] at h
        obtain ⟨rfl, rfl⟩ := h
        simp [isAcceptedQueryFor, hp, hq]
      | nil =>
        rw [hq] at h
        simp only at h
        by_cases hsc : q.qtype = QType.PTR ∧ q.name = loopbackPtrName
        · rw [if_pos hsc] at h
          simp only [Option.some.injEq, Prod.mk.injEq] at h
          obtain ⟨rfl, rfl⟩ := h
          simp [isAcceptedQueryFor, hp, hq, hsc]
        · rw [if_neg hsc] at h
          cases hget : storeGet st q.name with
          | some result =>
            rw [hget] at h
            simp only at h
            by_cases hfresh :
                result.response ≠ [] ∧ now - result.update_time < cfg.dns_cache_time
            · rw [if_pos hfresh] at h
              simp only [Option.some.injEq, Prod.mk.injEq] at h
              obtain ⟨rfl, rfl⟩ := h
              have hmem : storeContains st q.name = true := by
                simp [storeContains, hget]
              constructor
              · intro hc; exact Or.inr hc
              · intro hc
                rcases hc with hc | hc
                · have hqm : q.name = m := by
                    simp only [isAcceptedQueryFor, hp, hq, decide_eq_true_eq] at hc
                    exact hc.1
                  rw [← hqm]; exact hmem
                · exact hc
            · rw [if_neg hfresh] at h
              have hf := forwardQuery_contains cfg tNew st st' data frm q.name outs h m
              rw [hf]
              simp [isAcceptedQueryFor, hp, hq, hsc]
          | none =>
            rw [hget] at h
            simp only at h
            have hf := forwardQuery_contains cfg tNew st st' data frm q.name outs h m
            rw [hf]
            simp [isAcceptedQueryFor, hp, hq, hsc]

theorem processServerDatagram_contains (cfg : Config) (now : Nat) (st st' : Store)
    (data : Bytes) (frm : Addr) (outs : List Output)
    (h : processServerDatagram cfg now st data frm = some (st', outs)) (m : String) :
    storeContains st' m = storeContains st m := by
  unfold processServerDatagram at h
  cases hp : cfg.parse data with
  | none =>
    rw [hp] at h
    simp only [Option.some.injEq, Prod.mk.injEq] at h
    obtain ⟨rfl, rfl⟩ := h
    rfl
  | some message =>
    rw [hp] at h
    simp only at h
    cases hq : message.queries with
    | nil => rw [hq] at h; exact absurd h (by simp)
    | cons q qs =>
      rw [hq] at h
      simp only at h
      cases hget : storeGet st q.name with
      | none =>
        rw [hget] at h
        simp only at h
        simp only [Option.some.injEq, Prod.mk.injEq] at h
        obtain ⟨rfl, rfl⟩ := h
        rfl
      | some result =>
        rw [hget] at h
        simp only at h
        simp only [Option.some.injEq, Prod.mk.injEq] at h
        obtain ⟨rfl, rfl⟩ := h
        exact storeContains_storeSet_of_mem st q.name m _ result hget

theorem dispatch_local_contains (cfg : Config) (now : Nat) (ds : List (Bytes × Addr × Nat)) :
    ∀ (st st' : Store) (outs : List Output),
      dispatch_local cfg now st ds = some (st', outs) → ∀ m : String,
      (storeContains st' m = true ↔
        ds.any (fun d => isAcceptedQueryFor cfg m d.1) = true ∨ storeContains st m = true) := by
  induction ds with
  | nil =>
    intro st st' outs h m
    simp only [dispatch_local, Option.some.injEq, Prod.mk.injEq] at h
    obtain ⟨rfl, rfl⟩ := h
    simp
  | cons d rest ih =>
    obtain ⟨data, frm, tNew⟩ := d
    intro st st' outs h m
    unfold dispatch_local at h
    cases hp : processLocalDatagram cfg now tNew st data frm with
    | none => rw [hp] at h; exact absurd h (by simp)
    | some p =>
      obtain ⟨st1, outs1⟩ := p
      rw [hp] at h
      simp only at h
      cases hr : dispatch_local cfg now st1 rest with
      | none => rw [hr] at h; exact absurd h (by simp)
      | some p2 =>
        obtain ⟨st2, outs2⟩ := p2
        rw [hr] at h
        simp only [Option.some.injEq, Prod.mk.injEq] at h
        obtain ⟨rfl, rfl⟩ := h
        have h1 := processLocalDatagram_contains cfg now tNew st st1 data frm outs1 hp m
        have h2 := ih st1 st2 outs2 hr m
        rw [h2, h1]
        simp only [List.any_cons, Bool.or_eq_true]
        tauto

theorem dispatch_server_contains (cfg : Config) (now : Nat) (ds : List (Bytes × Addr)) :
    ∀ (st st' : Store) (outs : List Output),
      dispatch_server cfg now st ds = some (st', outs) → ∀ m : String,
      storeContains st' m = storeContains st m := by
  induction ds with
  | nil =>
    intro st st' outs h m
    simp only [dispatch_server, Option.some.injEq, Prod.mk.injEq] at h
    obtain ⟨rfl, rfl⟩ := h
    rfl
  | cons d rest ih =>
    obtain ⟨data, frm⟩ := d
    intro st st' outs h m
    unfold dispatch_server at h
    cases hp : processServerDatagram cfg now st data frm with
    | none => rw [hp] at h; exact absurd h (by simp)
    | some p =>
      obtain ⟨st1, outs1⟩ := p
      rw [hp] at h
      simp only at h
      cases hr : dispatch_server cfg now st1 rest with
      | none => rw [hr] at h; exact absurd h (by simp)
      | some p2 =>
        obtain ⟨st2, outs2⟩ := p2
        rw [hr] at h
        simp only [Option.some.injEq, Prod.mk.injEq] at h
        obtain ⟨rfl, rfl⟩ := h
        have h1 := processServerDatagram_contains cfg now st st1 data frm outs1 hp m
        have h2 := ih st1 st2 outs2 hr m
        rw [h2, h1]

theorem runEvents_contains (cfg : Config) (evs : List Ev) :
    ∀ (st st' : Store), runEvents cfg st evs = some st' → ∀ m : String,
      (storeContains st' m = true ↔
        acceptedInEvents cfg m evs = true ∨ storeContains st m = true) := by
  induction evs with
  | nil =>
    intro st st' h m
    simp only [runEvents, Option.some.injEq] at h
    subst h
    simp [acceptedInEvents]
  | cons ev rest ih =>
    intro st st' h m
    cases ev with
    | localReady now ds =>
      unfold runEvents at h
      cases hd : dispatch_local cfg now st ds with
      | none => rw [hd] at h; exact absurd h (by simp)
      | some p =>
        obtain ⟨st1, outs⟩ := p
        rw [hd] at h
        simp only at h
        have h1 := dispatch_local_contains cfg now ds st st1 outs hd m
        have h2 := ih st1 st' h m
        rw [h2, h1]
        simp only [acceptedInEvents, Bool.or_eq_true]
        tauto
    | serverReady now ds =>
      unfold runEvents at h
      cases hd : dispatch_server cfg now st ds with
      | none => rw [hd] at h; exact absurd h (by simp)
      | some p =>
        obtain ⟨st1, outs⟩ := p
        rw [hd] at h
        simp only at h
        have h1 := dispatch_server_contains cfg now ds st st1 outs hd m
        have h2 := ih st1 st' h m
        rw [h2, h1]
        simp only [acceptedInEvents]

/-!
Claim theorems.
-/

/-- C1 (amended): classification is plain byte-suffix matching — a domain
is marked blocked iff some blocklist entry is a byte-for-byte suffix of
the domain name, with no label-boundary requirement. -/
theorem C1_blocked_iff_plain_suffix (bd : List String) (name : String) :
    is_blocked bd name = true ↔ ∃ s ∈ bd, s.data <:+ name.data := by
  simp [is_blocked, ends_with, List.any_eq_true, List.isSuffixOf_iff_suffix]

/-- C1 counterexample: the blocklist line `example.com` is loaded as the
entry `"example.com."`; the name `"notexample.com."` ends with that entry
only without a label boundary, yet `is_blocked` classifies it as blocked
and `dispatch_local` forwards the query to the trusted upstream, not the
poisoned one. -/
theorem C1_counterexample :
    is_blocked (loadBlockedDomains ["example.com"]) "notexample.com." = true ∧
    endsAtLabelBoundarySpec "notexample.com." "example.com." = false ∧
    processLocalDatagram cfgC1 0 0 [] [1] 9
      = some ([("notexample.com.", ⟨[9], [], 0⟩)], [Output.toTrusted [1]]) := by
  decide

/-- C2 (amended): client-delivery failures are handled per-attempt — an
upstream reply found in the store is sent to every pending requester with
each attempt's outcome independent of the others, and the server drain
continues; but a failure of the upstream `send(..).unwrap()` when
forwarding a local query panics, aborting the local drain loop. -/
theorem C2_delivery_failure_handling :
    (∀ (cfg : Config) (now : Nat) (st : Store) (data : Bytes) (frm : Addr)
        (message : DnsMsg) (q : DnsQuery) (qs : List DnsQuery) (result : QueryResult),
        cfg.parse data = some message → message.queries = q :: qs →
        storeGet st q.name = some result →
        processServerDatagram cfg now st data frm
          = some (storeSet st q.name ⟨[], data, now⟩,
              result.addresses.map
                  (fun a => Output.toClient data a (!cfg.clientSendFails data a))
                ++ routeReports cfg message)) ∧
    (∀ (cfg : Config) (now tNew : Nat) (st : Store) (data : Bytes) (frm : Addr)
        (rest : List (Bytes × Addr × Nat)) (message : DnsMsg) (q : DnsQuery),
        cfg.parse data = some message → message.queries = [q] →
        ¬(q.qtype = QType.PTR ∧ q.name = loopbackPtrName) →
        (∀ r : QueryResult, storeGet st q.name = some r →
          ¬(r.response ≠ [] ∧ now - r.update_time < cfg.dns_cache_time)) →
        is_blocked cfg.blocked_domains q.name = true →
        cfg.trustedSendFails data = true →
        dispatch_local cfg now st ((data, frm, tNew) :: rest) = none) := by
  constructor
  · intro cfg now st data frm message q qs result hp hq hget
    unfold processServerDatagram
    rw [hp]
    simp only
    rw [hq]
    simp only
    rw [hget]
  · intro cfg now tNew st data frm rest message q hp hq hsc hmiss hb hfail
    have hpl : processLocalDatagram cfg now tNew st data frm = none := by
      unfold processLocalDatagram
      rw [hp]
      simp only
      rw [hq]
      simp only
      rw [if_neg hsc]
      cases hget : storeGet st q.name with
      | some result =>
        simp only
        rw [if_neg (hmiss result hget)]
        simp [forwardQuery, hb, hfail]
      | none =>
        simp only
        simp [forwardQuery, hb, hfail]
    unfold dispatch_local
    rw [hpl]

/-- C2 counterexample: with a trusted upstream whose `send` fails, a
single blocked query makes `dispatch_local` panic (`unwrap`), aborting the
drain: a delivery failure of a forwarded query does abort the loop and the
process. -/
theorem C2_counterexample :
    cfgFail.trustedSendFails [1] = true ∧
    dispatch_local cfgFail 0 [] [([1], 9, 0), ([2], 5, 0)] = none := by
  decide

/-- C3: an upstream reply that decodes to a message whose first-question
name has no Answer Cache entry is silently ignored — no outbound datagram,
no route report, and the store is left unchanged, even when the reply
carries answer records with addresses. -/
theorem C3_unmatched_reply_silently_dropped (cfg : Config) (now : Nat) (st : Store)
    (data : Bytes) (frm : Addr) (message : DnsMsg) (q : DnsQuery) (qs : List DnsQuery)
    (hp : cfg.parse data = some message) (hq : message.queries = q :: qs)
    (hmiss : storeGet st q.name = none) :
    processServerDatagram cfg now st data frm = some (st, []) := by
  unfold processServerDatagram
  rw [hp]
  simp only
  rw [hq]
  simp only
  rw [hmiss]

/-- C3 witness: a reply for `"r."` with a resolvable A-record is dropped
with no outputs when the store has no entry for `"r."`. -/
theorem C3_witness : processServerDatagram cfgA 0 [] [3] 0 = some ([], []) := by
  exact C3_unmatched_reply_silently_dropped cfgA 0 [] [3] 0
    ⟨[⟨"r.", QType.A⟩], [some "93.184.216.34", none]⟩ ⟨"r.", QType.A⟩ [] rfl rfl rfl

/-- C4 (amended): a fresh, non-empty cache entry answers a single-question
query from cache — reply is exactly the cached bytes, no upstream traffic,
store unchanged — unless the query is the fixed loopback PTR question,
which is intercepted earlier and answered with the synthetic PTR reply
regardless of cache state. -/
theorem C4_cache_hit_replies_cached_bytes (cfg : Config) (now tNew : Nat) (st : Store)
    (data : Bytes) (frm : Addr) (message : DnsMsg) (q : DnsQuery) (result : QueryResult)
    (hp : cfg.parse data = some message) (hq : message.queries = [q])
    (hsc : ¬(q.qtype = QType.PTR ∧ q.name = loopbackPtrName))
    (hget : storeGet st q.name = some result)
    (hne : result.response ≠ [])
    (hfresh : now - result.update_time < cfg.dns_cache_time) :
    processLocalDatagram cfg now tNew st data frm
      = some (st, [Output.toClient result.response frm
          (!cfg.clientSendFails result.response frm)]) := by
  unfold processLocalDatagram
  rw [hp]
  simp only
  rw [hq]
  simp only
  rw [if_neg hsc]
  rw [hget]
  simp only
  rw [if_pos ⟨hne, hfresh⟩]

/-- C4 witness: a query for `"a."` two seconds after the entry was cached
(validity 5) is answered with the cached bytes `[8, 8]` and nothing else
happens. -/
theorem C4_witness :
    processLocalDatagram cfgA 2 2 [("a.", ⟨[], [8, 8], 0⟩)] [1] 5
      = some ([("a.", ⟨[], [8, 8], 0⟩)], [Output.toClient [8, 8] 5 true]) := by
  exact C4_cache_hit_replies_cached_bytes cfgA 2 2 [("a.", ⟨[], [8, 8], 0⟩)] [1] 5
    ⟨[⟨"a.", QType.A⟩], []⟩ ⟨"a.", QType.A⟩ ⟨[], [8, 8], 0⟩ rfl rfl (by decide) rfl
    (by decide) (by decide)

/-- C4 counterexample: the loopback PTR query is a single-question query
for the name `"1.0.0.127.in-addr.arpa."`; with a fresh non-empty cache
entry holding payload `[9]` for exactly that name, the dispatcher replies
with the synthetic `arp_data` bytes `[7, 7]`, not the cached payload. -/
theorem C4_counterexample :
    storeGet [(loopbackPtrName, ⟨[], [9], 0⟩)] loopbackPtrName = some ⟨[], [9], 0⟩ ∧
    (0 : Nat) - 0 < cfgA.dns_cache_time ∧
    processLocalDatagram cfgA 0 0 [(loopbackPtrName, ⟨[], [9], 0⟩)] [0] 6
      = some ([(loopbackPtrName, ⟨[], [9], 0⟩)], [Output.toClient [7, 7] 6 true]) ∧
    ([7, 7] : Bytes) ≠ [9] := by
  decide

/-- C5 (amended): a single-question query whose cache entry has expired
(`update_time + dns_cache_time ≤ now`) is not answered from cache: it is
forwarded exactly once to the upstream selected by classification (when
that send succeeds) and the requester's address is appended to the entry's
pending requesters — unless the query is the fixed loopback PTR question,
which is answered synthetically before the cache is consulted. -/
theorem C5_expired_entry_forwards (cfg : Config) (now tNew : Nat) (st : Store)
    (data : Bytes) (frm : Addr) (message : DnsMsg) (q : DnsQuery) (result : QueryResult)
    (hp : cfg.parse data = some message) (hq : message.queries = [q])
    (hsc : ¬(q.qtype = QType.PTR ∧ q.name = loopbackPtrName))
    (hget : storeGet st q.name = some result)
    (hexp : result.update_time + cfg.dns_cache_time ≤ now)
    (hT : cfg.trustedSendFails data = false)
    (hP : cfg.poisonedSendFails data = false) :
    processLocalDatagram cfg now tNew st data frm
      = some (add_request q.name frm tNew st,
          [if is_blocked cfg.blocked_domains q.name then Output.toTrusted data
           else Output.toPoisoned data]) ∧
    storeGet (add_request q.name frm tNew st) q.name
      = some { result with addresses := result.addresses ++ [frm] } := by
  constructor
  · unfold processLocalDatagram
    rw [hp]
    simp only
    rw [hq]
    simp only
    rw [if_neg hsc]
    rw [hget]
    simp only
    have hnot : ¬(result.response ≠ [] ∧ now - result.update_time < cfg.dns_cache_time) := by
      rintro ⟨-, hlt⟩
      omega
    rw [if_neg hnot]
    by_cases hb : is_blocked cfg.blocked_domains q.name
    · simp [forwardQuery, hb, hT]
    · simp [forwardQuery, hb, hP]
  · exact storeGet_add_request_self q.name frm tNew st result hget

/-- C5 witness: a query for `"a."` arriving exactly when the entry
expires (cached at 0, validity 5, now 5) is forwarded to the trusted
upstream (the name is blocked) and the requester `5` is appended to the
pending list. -/
theorem C5_witness :
    processLocalDatagram cfgA 5 5 [("a.", ⟨[4], [8, 8], 0⟩)] [1] 5
      = some ([("a.", ⟨[4, 5], [8, 8], 0⟩)], [Output.toTrusted [1]]) ∧
    storeGet [("a.", ⟨[4, 5], [8, 8], 0⟩)] "a." = some ⟨[4, 5], [8, 8], 0⟩ := by
  exact C5_expired_entry_forwards cfgA 5 5 [("a.", ⟨[4], [8, 8], 0⟩)] [1] 5
    ⟨[⟨"a.", QType.A⟩], []⟩ ⟨"a.", QType.A⟩ ⟨[4], [8, 8], 0⟩ rfl rfl (by decide) rfl
    (by decide) rfl rfl

/-- C5 counterexample: the loopback PTR query is a single-question query
for `"1.0.0.127.in-addr.arpa."` whose entry expired long ago (updated at
0, validity 5, now 10), yet it is answered with the synthetic PTR bytes —
nothing is forwarded to any upstream and no address is appended. -/
theorem C5_counterexample :
    storeGet [(loopbackPtrName, ⟨[], [9], 0⟩)] loopbackPtrName = some ⟨[], [9], 0⟩ ∧
    (0 : Nat) + cfgA.dns_cache_time ≤ 10 ∧
    processLocalDatagram cfgA 10 10 [(loopbackPtrName, ⟨[], [9], 0⟩)] [0] 6
      = some ([(loopbackPtrName, ⟨[], [9], 0⟩)], [Output.toClient [7, 7] 6 true]) := by
  decide

/-- C6: if requesters `a` and `b` both query the name `n` before any reply
(the entry starts absent, so the two `add_request` calls record
`[a, b]`), then an upstream reply for `n` is sent verbatim to both, and
immediately afterwards the entry's pending list is empty, its cached
answer equals the raw reply bytes, and its timestamp is `now`. -/
theorem C6_coalesced_requesters_all_served (cfg : Config) (nowS tA tB : Nat) (st0 : Store)
    (n : String) (a b : Addr) (dataR : Bytes) (frm : Addr) (message : DnsMsg)
    (q : DnsQuery) (qs : List DnsQuery)
    (h0 : storeGet st0 n = none)
    (hp : cfg.parse dataR = some message) (hq : message.queries = q :: qs)
    (hn : q.name = n)
    (ha : cfg.clientSendFails dataR a = false) (hb : cfg.clientSendFails dataR b = false) :
    storeGet (add_request n b tB (add_request n a tA st0)) n = some ⟨[a, b], [], tA⟩ ∧
    processServerDatagram cfg nowS (add_request n b tB (add_request n a tA st0)) dataR frm
      = some (storeSet (add_request n b tB (add_request n a tA st0)) n ⟨[], dataR, nowS⟩,
          [Output.toClient dataR a true, Output.toClient dataR b true]
            ++ routeReports cfg message) ∧
    storeGet (storeSet (add_request n b tB (add_request n a tA st0)) n ⟨[], dataR, nowS⟩) n
      = some ⟨[], dataR, nowS⟩ := by
  subst hn
  have h1 : storeGet (add_request q.name a tA st0) q.name = some ⟨[a], [], tA⟩ := by
    simp [storeGet_add_request, h0]
  have h2 : storeGet (add_request q.name b tB (add_request q.name a tA st0)) q.name
      = some ⟨[a, b], [], tA⟩ := by
    have h3 := storeGet_add_request_self q.name b tB (add_request q.name a tA st0)
      ⟨[a], [], tA⟩ h1
    simpa using h3
  refine ⟨h2, ?_, ?_⟩
  · unfold processServerDatagram
    rw [hp]
    simp only
    rw [hq]
    simp only
    rw [h2]
    simp only [List.map_cons, List.map_nil, ha, hb]
    simp
  · simp [storeGet_storeSet]

/-- C6 witness: requesters `5` and `6` both query `"r."`; the reply `[3]`
is delivered to both, the pending list is drained, and the entry caches
`[3]` at time 3, with one route report for the carried address. -/
theorem C6_witness :
    storeGet (add_request "r." 6 1 (add_request "r." 5 1 [])) "r." = some ⟨[5, 6], [], 1⟩ ∧
    processServerDatagram cfgA 3 (add_request "r." 6 1 (add_request "r." 5 1 [])) [3] 0
      = some ([("r.", ⟨[], [3], 3⟩)],
          [Output.toClient [3] 5 true, Output.toClient [3] 6 true,
           Output.routeReport "93.184.216.34" true]) ∧
    storeGet [("r.", ⟨[], [3], 3⟩)] "r." = some ⟨[], [3], 3⟩ := by
  exact C6_coalesced_requesters_all_served cfgA 3 1 1 [] "r." 5 6 [3] 0
    ⟨[⟨"r.", QType.A⟩], [some "93.184.216.34", none]⟩ ⟨"r.", QType.A⟩ [] rfl rfl rfl rfl
    rfl rfl

/-- C7: a local datagram that decodes to a message whose question count
differs from one is discarded: no reply, no upstream forward, and no cache
creation or mutation. -/
theorem C7_multi_question_discarded (cfg : Config) (now tNew : Nat) (st : Store)
    (data : Bytes) (frm : Addr) (message : DnsMsg)
    (hp : cfg.parse data = some message) (hq : message.queries.length ≠ 1) :
    processLocalDatagram cfg now tNew st data frm = some (st, []) := by
  unfold processLocalDatagram
  rw [hp]
  simp only
  cases hql : message.queries with
  | nil => rfl
  | cons q qs =>
    cases qs with
    | nil =>
      exfalso
      apply hq
      rw [hql]
      rfl
    | cons q2 qs2 => rfl

/-- C7 witness: the two-question datagram `[2]` yields no output and
leaves the store unchanged. -/
theorem C7_witness : processLocalDatagram cfgA 0 0 [] [2] 5 = some ([], []) := by
  exact C7_multi_question_discarded cfgA 0 0 [] [2] 5
    ⟨[⟨"b.", QType.A⟩, ⟨"c.", QType.A⟩], []⟩ rfl (by decide)

/-- C8: the fixed loopback reverse-lookup query (PTR question for
`"1.0.0.127.in-addr.arpa."`) is answered with the pre-encoded synthetic
PTR reply and nothing else: no upstream forward, no cache lookup
consequence, no entry creation — the store is returned unchanged. -/
theorem C8_loopback_ptr_shortcut (cfg : Config) (now tNew : Nat) (st : Store)
    (data : Bytes) (frm : Addr) (message : DnsMsg) (q : DnsQuery)
    (hp : cfg.parse data = some message) (hq : message.queries = [q])
    (hqt : q.qtype = QType.PTR) (hn : q.name = loopbackPtrName) :
    processLocalDatagram cfg now tNew st data frm
      = some (st, [Output.toClient cfg.arp_data frm
          (!cfg.clientSendFails cfg.arp_data frm)]) := by
  unfold processLocalDatagram
  rw [hp]
  simp only
  rw [hq]
  simp only
  rw [if_pos ⟨hqt, hn⟩]

/-- C8 witness: the loopback PTR datagram `[0]` receives the synthetic
`arp_data` reply `[7, 7]` and the store stays empty. -/
theorem C8_witness :
    processLocalDatagram cfgA 0 0 [] [0] 6 = some ([], [Output.toClient [7, 7] 6 true]) := by
  exact C8_loopback_ptr_shortcut cfgA 0 0 [] [0] 6
    ⟨[⟨loopbackPtrName, QType.PTR⟩], []⟩ ⟨loopbackPtrName, QType.PTR⟩ rfl rfl rfl rfl

/-- C9 (amended): over any panic-free run from the empty store, an Answer
Cache entry exists for a name iff at least one accepted single-question
query for that name — other than the fixed loopback PTR question — reached
the dispatch engine; and no dispatch operation ever removes an entry. -/
theorem C9_cache_entry_invariant :
    (∀ (cfg : Config) (evs : List Ev) (st' : Store),
        runEvents cfg [] evs = some st' → ∀ n : String,
        (storeContains st' n = true ↔ acceptedInEvents cfg n evs = true)) ∧
    (∀ (cfg : Config) (st : Store) (evs : List Ev) (st' : Store),
        runEvents cfg st evs = some st' → ∀ n : String,
        storeContains st n = true → storeContains st' n = true) := by
  constructor
  · intro cfg evs st' h n
    have h1 := runEvents_contains cfg evs [] st' h n
    simpa [storeContains, storeGet] using h1
  · intro cfg st evs st' h n hn
    exact (runEvents_contains cfg evs st st' h n).mpr (Or.inr hn)

/-- C9 witness: one accepted query for `"a."` creates the entry, and an
entry for `"z."` present before a run is still present after it. -/
theorem C9_witness :
    (storeContains [("a.", ⟨[5], [], 0⟩)] "a." = true ↔
      acceptedInEvents cfgA "a." [Ev.localReady 0 [([1], 5, 0)]] = true) ∧
    storeContains [("z.", ⟨[], [], 0⟩), ("a.", ⟨[5], [], 0⟩)] "z." = true := by
  exact ⟨C9_cache_entry_invariant.1 cfgA [Ev.localReady 0 [([1], 5, 0)]]
      [("a.", ⟨[5], [], 0⟩)] (by decide) "a.",
    C9_cache_entry_invariant.2 cfgA [("z.", ⟨[], [], 0⟩)] [Ev.localReady 0 [([1], 5, 0)]]
      [("z.", ⟨[], [], 0⟩), ("a.", ⟨[5], [], 0⟩)] (by decide) "z." (by decide)⟩

/-- C9 counterexample: the loopback PTR query is a query that reaches the
dispatch engine, yet after the run the store still has no entry at all —
the claimed "entry exists iff at least one query for the name reached the
engine" fails in the only-if-given-query direction. -/
theorem C9_counterexample :
    runEvents cfgA [] [Ev.localReady 0 [([0], 7, 0)]] = some [] ∧
    queryReachedEvents cfgA loopbackPtrName [Ev.localReady 0 [([0], 7, 0)]] = true ∧
    storeContains [] loopbackPtrName = false := by
  decide

/-- C10 (amended): the `queries()[0]` access in upstream-reply dispatch is
in-bounds exactly when the decoded message has at least one question: the
dispatch of one upstream datagram panics iff the datagram decodes to a
message with an empty question section. -/
theorem C10_first_question_panics_iff_no_question (cfg : Config) (now : Nat) (st : Store)
    (data : Bytes) (frm : Addr) :
    processServerDatagram cfg now st data frm = none ↔
      ∃ message, cfg.parse data = some message ∧ message.queries = [] := by
  unfold processServerDatagram
  cases hp : cfg.parse data with
  | none =>
    simp only
    simp [hp]
  | some message =>
    simp only
    cases hq : message.queries with
    | nil => simp [hp, hq]
    | cons q qs =>
      simp only
      cases hget : storeGet st q.name with
      | none => simp [hp, hq, hget]
      | some r => simp [hp, hq, hget]

/-- C10 counterexample: the datagram `[8]` decodes successfully to a reply
with an empty question section (and a resolvable answer record), and
dispatching it panics — the out-of-bounds branch is reachable. -/
theorem C10_counterexample :
    cfgA.parse [8] = some ⟨[], [some "5.6.7.8"]⟩ ∧
    processServerDatagram cfgA 0 [] [8] 2 = none := by
  decide

/-- C2 witness: a reply delivered to pending requesters `4` (whose send
fails) and `5` (whose send succeeds) still attempts both sends and updates
the entry; and a concrete failing trusted-upstream send aborts the local
drain. -/
theorem C2_witness :
    processServerDatagram cfgA 3 [("r.", ⟨[4, 5], [], 0⟩)] [3] 0
      = some ([("r.", ⟨[], [3], 3⟩)],
          [Output.toClient [3] 4 false, Output.toClient [3] 5 true,
           Output.routeReport "93.184.216.34" true]) ∧
    dispatch_local cfgFail 0 [] [([1], 9, 0)] = none := by
  exact ⟨C2_delivery_failure_handling.1 cfgA 3 [("r.", ⟨[4, 5], [], 0⟩)] [3] 0
      ⟨[⟨"r.", QType.A⟩], [some "93.184.216.34", none]⟩ ⟨"r.", QType.A⟩ []
      ⟨[4, 5], [], 0⟩ rfl rfl rfl,
    C2_delivery_failure_handling.2 cfgFail 0 0 [] [1] 9 []
      ⟨[⟨"a.", QType.A⟩], []⟩ ⟨"a.", QType.A⟩ rfl rfl (by decide)
      (fun r hr => by simp [storeGet] at hr) (by decide) rfl⟩
